import Mathlib

/-!
Verification development for the ChatExchange wrapper
(src/chatexchange/wrapper.py): a shallow embedding of the
message-send pipeline (FIFO worker, backoff controller) and the
event classifier, with theorems settling the specification's claims.
-/

namespace ChatExchange

/-! ## Transport responses

The browser's postSomething returns either a string (rate-limit text or
an opaque error text), a dict (structured payload whose "id" field may
be null), or some other value (e.g. None).  Only the aspects the send
loop inspects are modelled. -/

/-- Possible values of the response the send loop inspects: a string, a
dict carrying an "id" field (none models an explicitly null id), or any
value that is neither a string instance nor a dict. -/
inductive Response where
  | text : String → Response
  | payload : Option Nat → Response
  | other : Response
deriving DecidableEq

/-- Backoff constant from the source: BACKOFF_MULTIPLIER = 2. -/
def BACKOFF_MULTIPLIER : Nat := 2

/-- Backoff constant from the source: BACKOFF_ADDER = 5. -/
def BACKOFF_ADDER : Nat := 5

/-- Characters of the literal part of TOO_FAST_RE before the digit group:
the regex is anchored at the start of the string (re.match). -/
def tooFastHead : List Char := ("You can perform this action again in ").data

/-- Characters of the literal part of TOO_FAST_RE after the digit group. -/
def tooFastTail : List Char := (" seconds").data

/-- Strips a literal character sequence from the front of a list,
returning the remainder when the whole sequence is present. -/
def stripHead : List Char → List Char → Option (List Char)
  | [], rest => some rest
  | _ :: _, [] => none
  | p :: ps, c :: cs => if c = p then stripHead ps cs else none

/-- Numeric value of a digit run, as int(...) computes it. -/
def digitsToNat (cs : List Char) : Nat :=
  cs.foldl (fun n c => n * 10 + (c.toNat - 48)) 0

/-- Embedding of re.match(TOO_FAST_RE, response): the literal head, then
one or more digits (greedy, which is forced here since the following
literal starts with a non-digit), then the literal tail; trailing text
is allowed since re.match only anchors the start.  Returns the seconds
count captured by the digit group. -/
def parseTooFast (s : String) : Option Nat :=
  match stripHead tooFastHead s.data with
  | none => none
  | some rest =>
    let ds := rest.takeWhile Char.isDigit
    if ds.isEmpty then none
    else
      match stripHead tooFastTail (rest.dropWhile Char.isDigit) with
      | none => none
      | some _ => some (digitsToNat ds)

/-! ## One attempt of the send loop -/

/-- Outcome of one iteration of the while loop in _actuallySendMessage:
the wait slept at the end of the iteration, whether the message is now
sent, and the (possibly modified) text carried into the next iteration
(or recorded as _previous when sent). -/
structure StepOut where
  wait : Nat
  sent : Bool
  text : String
deriving DecidableEq

/-- Embedding of one iteration of the while loop of _actuallySendMessage:
wait starts at 0; a string response either matches the rate-limit
pattern (wait becomes w * BACKOFF_MULTIPLIER + BACKOFF_ADDER) or is an
unknown failure (wait becomes BACKOFF_ADDER); a dict response with a
null id is a duplicate (a trailing space is appended to the text and
wait becomes BACKOFF_ADDER); any other outcome leaves wait at 0, and a
zero wait means success: wait is reset to BACKOFF_ADDER and sent is
set. -/
def attemptStep (text : String) (response : Response) : StepOut :=
  let (wait, text) :=
    match response with
    | Response.text s =>
      match parseTooFast s with
      | some w => (w * BACKOFF_MULTIPLIER + BACKOFF_ADDER, text)
      | none => (BACKOFF_ADDER, text)
    | Response.payload id =>
      match id with
      | none => (BACKOFF_ADDER, text ++ " ")
      | some _ => (0, text)
    | Response.other => (0, text)
  if wait ≠ 0 then { wait := wait, sent := false, text := text }
  else { wait := BACKOFF_ADDER, sent := true, text := text }

/-- True exactly for the responses the loop treats as an accepted send:
a dict whose id is not null, or a value that is neither str nor dict. -/
def isAcceptResponse : Response → Bool
  | Response.payload (some _) => true
  | Response.other => true
  | _ => false

/-! ## The per-message send loop -/

/-- One postSomething call made by the loop: the path posted to, the
text posted, and the wait slept after the attempt. -/
structure Attempt where
  path : String
  text : String
  wait : Nat
deriving DecidableEq

/-- Result of running the send loop against a finite script of
responses: the attempts made, and some finalText when an attempt
succeeded (the value stored into _previous), none when the script was
exhausted with the loop still retrying. -/
structure LoopResult where
  trace : List Attempt
  accepted : Option String
deriving DecidableEq

/-- Embedding of the while loop of _actuallySendMessage, driven by a
finite script giving the transport's response to each successive
attempt.  The loop stops at the first accepted attempt and otherwise
keeps retrying with the text attemptStep hands forward. -/
def sendLoop (path : String) (text : String) : List Response → LoopResult
  | [] => { trace := [], accepted := none }
  | r :: rs =>
    let o := attemptStep text r
    if o.sent then { trace := [⟨path, text, o.wait⟩], accepted := some text }
    else
      let res := sendLoop path o.text rs
      { trace := ⟨path, text, o.wait⟩ :: res.trace, accepted := res.accepted }

/-- The path _actuallySendMessage posts to for a room. -/
def msgPath (room_id : Nat) : String :=
  "/chats/" ++ toString room_id ++ "/messages/new"

/-- The duplicate guard at the top of _actuallySendMessage: when the
text equals the previously sent text, one leading space is prepended
before the first attempt. -/
def guardText (previous : Option String) (text : String) : String :=
  if previous = some text then " " ++ text else text

/-- Embedding of _actuallySendMessage: apply the duplicate guard once,
then run the send loop on the room's message path. -/
def _actuallySendMessage (previous : Option String) (room_id : Nat)
    (text : String) (script : List Response) : LoopResult :=
  sendLoop (msgPath room_id) (guardText previous text) script

/-! ## The worker and the session facade -/

/-- An entry of the message queue: either a pending (room_id, text)
pair put by sendMessage, or the SystemExit sentinel put by logout. -/
inductive QueueItem where
  | msg : Nat → String → QueueItem
  | stop : QueueItem
deriving DecidableEq

/-- Embedding of the _worker loop, run over the finite sequence of
queue items it will dequeue, each pending message paired with the
script of transport responses its send loop will see.  Returns the
(path, text) pairs handed to postSomething, in order.  The worker
exits at the sentinel; a message whose script never accepts leaves the
worker retrying inside that message's loop, so no later message is
posted. -/
def _worker (previous : Option String) :
    List (QueueItem × List Response) → List (String × String)
  | [] => []
  | (QueueItem.stop, _) :: _ => []
  | (QueueItem.msg rid text, script) :: rest =>
    let res := _actuallySendMessage previous rid text script
    let posts := res.trace.map (fun a => (a.path, a.text))
    match res.accepted with
    | some p => posts ++ _worker (some p) rest
    | none => posts

/-- Embedding of the SEChatWrapper state: the fields __init__ creates
that the modelled operations touch. -/
structure SEChatWrapper where
  site : String
  logged_in : Bool
  previous : Option String
  queue : List QueueItem
  messages : Nat
  thread_started : Bool
deriving DecidableEq

/-- Embedding of SEChatWrapper.__init__: the deprecated site name MSO
is normalized to MSE; the session starts logged out with an empty
queue and the worker thread not yet started. -/
def mkWrapper (site : String) : SEChatWrapper :=
  let site := if site = "MSO" then "MSE" else site
  { site := site, logged_in := false, previous := none, queue := [],
    messages := 0, thread_started := false }

/-- Embedding of SEChatWrapper.sendMessage: the (room_id, text) pair is
put on the queue; no precondition is checked. -/
def sendMessage (w : SEChatWrapper) (room_id : Nat) (text : String) :
    SEChatWrapper :=
  { w with queue := w.queue ++ [QueueItem.msg room_id text] }

/-- Result of login: the exception raised if any, the wrapper state
after the call, and the browser operations invoked. -/
structure LoginOut where
  result : Except String Unit
  state : SEChatWrapper
  browserCalls : List String

/-- Embedding of SEChatWrapper.login: asserts the session is logged
out, performs the OpenID login, then dispatches on the site; SE, SO
and MSE each run their site login and on success the session is marked
logged in and the worker thread is started; any other site raises
ValueError and the state is left unchanged. -/
def login (w : SEChatWrapper) : LoginOut :=
  if w.logged_in then
    { result := Except.error ("AssertionError"), state := w, browserCalls := [] }
  else if w.site = "SE" then
    { result := Except.ok (),
      state := { w with logged_in := true, thread_started := true },
      browserCalls := [("loginSEOpenID"), ("loginSECOM"), ("loginChatSE")] }
  else if w.site = "SO" then
    { result := Except.ok (),
      state := { w with logged_in := true, thread_started := true },
      browserCalls := [("loginSEOpenID"), ("loginSO")] }
  else if w.site = "MSE" then
    { result := Except.ok (),
      state := { w with logged_in := true, thread_started := true },
      browserCalls := [("loginSEOpenID"), ("loginMSE")] }
  else
    { result := Except.error ("Unable to login to site: " ++ w.site),
      state := w,
      browserCalls := [("loginSEOpenID")] }

/-- Embedding of SEChatWrapper.logout: asserts the session is logged
in, puts the SystemExit sentinel on the queue and clears logged_in. -/
def logout (w : SEChatWrapper) : Except String SEChatWrapper :=
  if w.logged_in then
    Except.ok { w with queue := w.queue ++ [QueueItem.stop], logged_in := false }
  else
    Except.error ("AssertionError")

/-! ## Events -/

/-- Embedding of the Event.Types IntEnum: the closed set of known
event type codes. -/
inductive Event.Types where
  | message_posted
  | message_edited
  | user_entered
  | user_left
  | room_name_changed
  | message_starred
  | debug_message
  | user_mentioned
  | message_flagged
  | message_deleted
  | file_added
  | moderator_flag
  | user_settings_changed
  | global_notification
  | access_level_changed
  | user_notification
  | invitation
  | message_reply
  | message_moved_out
  | message_moved_in
  | time_break
  | feed_ticker
  | user_suspended
  | user_merged
deriving DecidableEq

/-- Numeric code of each Event.Types member, as declared in the
source enumeration. -/
def Event.Types.value : Event.Types → Int
  | .message_posted => 1
  | .message_edited => 2
  | .user_entered => 3
  | .user_left => 4
  | .room_name_changed => 5
  | .message_starred => 6
  | .debug_message => 7
  | .user_mentioned => 8
  | .message_flagged => 9
  | .message_deleted => 10
  | .file_added => 11
  | .moderator_flag => 12
  | .user_settings_changed => 13
  | .global_notification => 14
  | .access_level_changed => 15
  | .user_notification => 16
  | .invitation => 17
  | .message_reply => 18
  | .message_moved_out => 19
  | .message_moved_in => 20
  | .time_break => 21
  | .feed_ticker => 22
  | .user_suspended => 29
  | .user_merged => 30

/-- The members of the enumeration, in declaration order, as iterating
the IntEnum visits them. -/
def Event.Types.all : List Event.Types :=
  [.message_posted, .message_edited, .user_entered, .user_left,
   .room_name_changed, .message_starred, .debug_message, .user_mentioned,
   .message_flagged, .message_deleted, .file_added, .moderator_flag,
   .user_settings_changed, .global_notification, .access_level_changed,
   .user_notification, .invitation, .message_reply, .message_moved_out,
   .message_moved_in, .time_break, .feed_ticker, .user_suspended,
   .user_merged]

/-- Embedding of Event.Types.by_value followed by the dict lookup: the
enum member carrying a given code, if any. -/
def Event.Types.by_value (n : Int) : Option Event.Types :=
  Event.Types.all.find? (fun t => t.value == n)

/-- The type field of a constructed Event: either a resolved enum
member, or the raw integer code kept when the lookup raised KeyError
(only logged, never propagated). -/
inductive EType where
  | known : Event.Types → EType
  | unknown : Int → EType
deriving DecidableEq

/-- Integer value an EType compares as: IntEnum members compare by
their numeric code, raw integers by themselves. -/
def EType.code : EType → Int
  | .known t => t.value
  | .unknown c => c

/-- A raw per-event record from an activity blob, with one field per
dict key Event.__init__ reads; none models an absent key. -/
structure RawRecord where
  event_type : Option Int
  id : Option Int
  room_id : Option Int
  room_name : Option String
  time_stamp : Option Int
  content : Option String
  user_name : Option String
  user_id : Option Int
  message_id : Option Int
deriving DecidableEq

/-- An Event as Event.__init__ constructs it; the four message fields
are present only when the resolved type is message_posted. -/
structure Event where
  type : EType
  event_id : Int
  room_id : Int
  room_name : String
  time_stamp : Int
  content : Option String
  user_name : Option String
  user_id : Option Int
  message_id : Option Int
deriving DecidableEq

/-- Embedding of Event.__init__: read the five base keys (a missing key
raises KeyError), resolve event_type against the known codes keeping
the raw integer when there is no match, and when the resolved type
compares equal to message_posted additionally read the four message
keys. -/
def mkEvent (data : RawRecord) : Except String Event :=
  match data.event_type, data.id, data.room_id, data.room_name,
      data.time_stamp with
  | some et, some eid, some rid, some rname, some ts =>
    let ty := match Event.Types.by_value et with
      | some t => EType.known t
      | none => EType.unknown et
    if ty.code = 1 then
      match data.content, data.user_name, data.user_id, data.message_id with
      | some c, some un, some uid, some mid =>
        Except.ok { type := ty, event_id := eid, room_id := rid,
                    room_name := rname, time_stamp := ts,
                    content := some c, user_name := some un,
                    user_id := some uid, message_id := some mid }
      | _, _, _, _ => Except.error ("KeyError")
    else
      Except.ok { type := ty, event_id := eid, room_id := rid,
                  room_name := rname, time_stamp := ts, content := none,
                  user_name := none, user_id := none, message_id := none }
  | _, _, _, _, _ => Except.error ("KeyError")

/-- The value at one room key of an activity blob: its ordered event
list under the key e, when present.  A falsy raw entry of that list is
modelled as none, a truthy dict as some record. -/
structure RoomActivity where
  e : Option (List (Option RawRecord))
deriving DecidableEq

/-- Dict lookup on an activity blob modelled as an association list. -/
def lookupDict (d : List (String × RoomActivity)) (k : String) :
    Option RoomActivity :=
  match d with
  | [] => none
  | (k2, v) :: rest => if k2 = k then some v else lookupDict rest k

/-- Embedding of SEChatWrapper._room_events: look up key r + room_id
with an empty dict as default, take its event list with an empty list
as default, and build an Event for each truthy raw entry, in order; an
exception from any construction propagates. -/
def _room_events (activity : List (String × RoomActivity))
    (room_id : String) : Except String (List Event) :=
  let room_activity := (lookupDict activity ("r" ++ room_id)).getD { e := none }
  let room_events_data := room_activity.e.getD []
  (room_events_data.filterMap id).mapM mkEvent

/-- Modelled from the spec: classification walks the raw record
sequence in order, emits nothing for an empty or falsy entry, turns
each remaining record into one Event, and aborts only when a
construction itself fails.  Stated separately from _room_events so the
code's list comprehension can be proved to refine it. -/
def classifySeq : List (Option RawRecord) → Except String (List Event)
  | [] => Except.ok []
  | none :: rest => classifySeq rest
  | some r :: rest =>
    match mkEvent r with
    | Except.error e => Except.error e
    | Except.ok ev =>
      match classifySeq rest with
      | Except.error e => Except.error e
      | Except.ok evs => Except.ok (ev :: evs)

/-! ## Helper lemmas about the send loop -/

/-- An attempt is marked sent exactly when the response is a dict with
a non-null id or a value that is neither str nor dict. -/
theorem attemptStep_sent (text : String) (r : Response) :
    (attemptStep text r).sent = isAcceptResponse r := by
  cases r with
  | text s =>
    cases h : parseTooFast s <;>
      simp [attemptStep, isAcceptResponse, h, BACKOFF_MULTIPLIER, BACKOFF_ADDER]
  | payload id =>
    cases id <;>
      simp [attemptStep, isAcceptResponse, BACKOFF_ADDER]
  | other =>
    simp [attemptStep, isAcceptResponse]

/-- One iteration either keeps the text or appends one trailing
space (the duplicate branch). -/
theorem attemptStep_text_or (text : String) (r : Response) :
    (attemptStep text r).text = text ∨ (attemptStep text r).text = text ++ " " := by
  cases r with
  | text s =>
    cases h : parseTooFast s <;>
      simp [attemptStep, h, BACKOFF_MULTIPLIER, BACKOFF_ADDER]
  | payload id =>
    cases id <;> simp [attemptStep, BACKOFF_ADDER]
  | other => simp [attemptStep]

/-- On a sent iteration the text was not modified. -/
theorem attemptStep_sent_text (text : String) (r : Response)
    (h : (attemptStep text r).sent = true) : (attemptStep text r).text = text := by
  cases r with
  | text s =>
    cases hp : parseTooFast s <;>
      simp_all [attemptStep, hp, BACKOFF_MULTIPLIER, BACKOFF_ADDER]
  | payload id =>
    cases id <;> simp_all [attemptStep, BACKOFF_ADDER]
  | other => simp [attemptStep]

/-- The first attempt of a nonempty script posts the text the loop was
entered with. -/
theorem sendLoop_trace_cons (path text : String) (r : Response)
    (rs : List Response) :
    ∃ w rest, (sendLoop path text (r :: rs)).trace = ⟨path, text, w⟩ :: rest := by
  simp only [sendLoop]
  split
  · exact ⟨_, _, rfl⟩
  · exact ⟨_, _, rfl⟩

/-- The head attempt of the trace, when present, posts the text the
loop was entered with. -/
theorem sendLoop_head_text (path : String) (script : List Response)
    (text : String) (b : Attempt)
    (h : ((sendLoop path text script)).trace.head? = some b) : b.text = text := by
  cases script with
  | nil => simp [sendLoop] at h
  | cons r rs =>
    obtain ⟨w, rest, hw⟩ := sendLoop_trace_cons path text r rs
    rw [hw] at h
    simp at h
    rw [← h]

/-- Every attempt of the loop posts to the path the loop was entered
with. -/
theorem sendLoop_path (path : String) (script : List Response) :
    ∀ (text : String), ∀ a ∈ (sendLoop path text script).trace, a.path = path := by
  induction script with
  | nil => intro text a ha; simp [sendLoop] at ha
  | cons r rs ih =>
    intro text a ha
    simp only [sendLoop] at ha
    split at ha
    · simp at ha; rw [ha]
    · simp at ha
      rcases ha with ha | ha
      · rw [ha]
      · exact ih _ a ha

/-- Along the trace, each later attempt's text is the previous
attempt's text, possibly with one trailing space appended; in
particular nothing is ever prepended after the first attempt. -/
theorem sendLoop_chain (path : String) (script : List Response) :
    ∀ (text : String),
      List.Chain' (fun a b => b.text = a.text ∨ b.text = a.text ++ " ")
        ((sendLoop path text script)).trace := by
  induction script with
  | nil => intro text; simp [sendLoop]
  | cons r rs ih =>
    intro text
    simp only [sendLoop]
    split
    · simp
    · rw [List.chain'_cons']
      refine ⟨?_, ih _⟩
      intro b hb
      have hbt := sendLoop_head_text path rs (attemptStep text r).text b hb
      rw [hbt]
      exact attemptStep_text_or text r

/-- A script containing an accepted response makes the loop terminate
with some recorded previous text. -/
theorem sendLoop_accepts (path : String) (script : List Response)
    (hacc : ∃ r ∈ script, isAcceptResponse r = true) :
    ∀ (text : String), ∃ p, (sendLoop path text script).accepted = some p := by
  induction script with
  | nil => simp at hacc
  | cons r rs ih =>
    intro text
    simp only [sendLoop]
    by_cases hs : (attemptStep text r).sent = true
    · rw [if_pos hs]; exact ⟨text, rfl⟩
    · rw [if_neg hs]
      have hr : isAcceptResponse r = false := by
        rw [← attemptStep_sent text r]
        simpa using hs
      have : ∃ r2 ∈ rs, isAcceptResponse r2 = true := by
        rcases hacc with ⟨r2, hr2, hacc2⟩
        rcases List.mem_cons.mp hr2 with h | h
        · rw [h] at hacc2; rw [hacc2] at hr; cases hr
        · exact ⟨r2, h, hacc2⟩
      exact ih this _

/-! ## Claim theorems: the backoff controller -/

/-- C3: for every send attempt whose response is a rate-limit text
reporting w seconds, the send loop retries the same unmodified text
and the wait before the next attempt equals exactly
w * 2 + 5 (BACKOFF_MULTIPLIER = 2, BACKOFF_ADDER = 5). -/
theorem C3_rate_limited_backoff (path text s : String) (w : Nat)
    (rs : List Response) (h : parseTooFast s = some w) :
    BACKOFF_MULTIPLIER = 2 ∧ BACKOFF_ADDER = 5 ∧
    sendLoop path text (Response.text s :: rs) =
      { trace := ⟨path, text, w * 2 + 5⟩ :: (sendLoop path text rs).trace,
        accepted := (sendLoop path text rs).accepted } := by
  refine ⟨rfl, rfl, ?_⟩
  have hstep : attemptStep text (Response.text s) =
      { wait := w * 2 + 5, sent := false, text := text } := by
    simp [attemptStep, h, BACKOFF_MULTIPLIER, BACKOFF_ADDER]
  simp [sendLoop, hstep]

/-- Closed instance of C3_rate_limited_backoff at a concrete
rate-limit text reporting 3 seconds. -/
theorem C3_rate_limited_backoff_witness :
    BACKOFF_MULTIPLIER = 2 ∧ BACKOFF_ADDER = 5 ∧
    sendLoop ("p") ("x")
        (Response.text ("You can perform this action again in 3 seconds") :: []) =
      { trace := ⟨"p", "x", 3 * 2 + 5⟩ :: (sendLoop ("p") ("x") []).trace,
        accepted := (sendLoop ("p") ("x") []).accepted } :=
  C3_rate_limited_backoff ("p") ("x")
    ("You can perform this action again in 3 seconds") 3 [] (by rfl)

/-- C4: a dict response whose id field is explicitly null is treated
as a duplicate, not as accepted: the loop continues, the text retried
on the next attempt is the current text with one trailing space
appended, and the wait before that retry is exactly 5 seconds. -/
theorem C4_duplicate_appends_space (path text : String) (rs : List Response) :
    sendLoop path text (Response.payload none :: rs) =
      { trace := ⟨path, text, 5⟩ :: (sendLoop path (text ++ " ") rs).trace,
        accepted := (sendLoop path (text ++ " ") rs).accepted } := by
  have hstep : attemptStep text (Response.payload none) =
      { wait := 5, sent := false, text := text ++ " " } := by
    simp [attemptStep, BACKOFF_ADDER]
  simp [sendLoop, hstep]

/-- C6: string responses that do not match the rate-limit pattern
never terminate the send loop: every attempt posts the identical text
and is followed by a wait of exactly 5 seconds, however long the
script of such responses is, and the loop is still unaccepted at its
end. -/
theorem C6_unknown_failure_retries (path text : String)
    (script : List Response)
    (h : ∀ r ∈ script, ∃ s, r = Response.text s ∧ parseTooFast s = none) :
    sendLoop path text script =
      { trace := script.map (fun _ => ⟨path, text, 5⟩), accepted := none } := by
  induction script with
  | nil => rfl
  | cons r rs ih =>
    obtain ⟨s, hrs, hps⟩ := h r (List.mem_cons_self r rs)
    have hstep : attemptStep text r =
        { wait := 5, sent := false, text := text } := by
      rw [hrs]
      simp [attemptStep, hps, BACKOFF_ADDER]
    have hrest := ih (fun r2 hr2 => h r2 (List.mem_cons_of_mem r hr2))
    simp [sendLoop, hstep, hrest]

/-- Closed instance of C6_unknown_failure_retries on a two-response
script of unrecognized strings. -/
theorem C6_unknown_failure_retries_witness :
    sendLoop ("p") ("x") [Response.text ("oops"), Response.text ("oops")] =
      { trace := [Response.text ("oops"), Response.text ("oops")].map
          (fun _ => ⟨"p", "x", 5⟩),
        accepted := none } :=
  C6_unknown_failure_retries ("p") ("x")
    [Response.text ("oops"), Response.text ("oops")]
    (by
      intro r hr
      simp at hr
      exact ⟨("oops"), hr, by rfl⟩)

/-- C10: a response that is neither a string instance nor a dict is
treated as an accepted send: the loop stops immediately (any remaining
script is unused), the wait after the attempt is the fixed 5-second
cooldown, the posted text is recorded as the previous-sent text, and
the worker then proceeds to the next queued message with that recorded
text as the duplicate-guard reference. -/
theorem C10_non_str_non_dict_accepted (path text : String)
    (rs : List Response) (prev : Option String) (rid : Nat)
    (items : List (QueueItem × List Response)) :
    sendLoop path text (Response.other :: rs) =
      { trace := [⟨path, text, 5⟩], accepted := some text } ∧
    _worker prev ((QueueItem.msg rid text, [Response.other]) :: items) =
      (msgPath rid, guardText prev text) ::
        _worker (some (guardText prev text)) items := by
  constructor
  · simp [sendLoop, attemptStep, BACKOFF_ADDER]
  · simp [_worker, _actuallySendMessage, sendLoop, attemptStep, BACKOFF_ADDER]

/-! ## Claim theorems: duplicate guard and FIFO order -/

/-- C5: exactly when the next message's text equals the previously
successfully sent text, one leading space is prepended, and only
before the first attempt: the first posted text is the guarded text,
and each later attempt's text differs from its predecessor at most by
one appended trailing space, never by anything prepended. -/
theorem C5_previous_text_guard (prev : Option String) (rid : Nat)
    (text : String) (script : List Response) (h : script ≠ []) :
    ∃ first rest, (_actuallySendMessage prev rid text script).trace = first :: rest ∧
      first.text = (if prev = some text then " " ++ text else text) ∧
      List.Chain' (fun a b => b.text = a.text ∨ b.text = a.text ++ " ")
        ((_actuallySendMessage prev rid text script).trace) := by
  simp only [_actuallySendMessage]
  cases script with
  | nil => exact absurd rfl h
  | cons r rs =>
    obtain ⟨w, rest, hw⟩ := sendLoop_trace_cons (msgPath rid) (guardText prev text) r rs
    exact ⟨⟨msgPath rid, guardText prev text, w⟩, rest, hw, rfl,
      sendLoop_chain (msgPath rid) (r :: rs) (guardText prev text)⟩

/-- Closed instance of C5_previous_text_guard where the previous sent
text equals the next text. -/
theorem C5_previous_text_guard_witness :
    ∃ first rest,
      (_actuallySendMessage (some ("hi")) 1 ("hi") [Response.other]).trace =
        first :: rest ∧
      first.text = (if (some ("hi") : Option String) = some ("hi")
        then " " ++ "hi" else "hi") ∧
      List.Chain' (fun a b => b.text = a.text ∨ b.text = a.text ++ " ")
        ((_actuallySendMessage (some ("hi")) 1 ("hi") [Response.other]).trace) :=
  C5_previous_text_guard (some ("hi")) 1 ("hi") [Response.other] (by simp)

/-- C1: the worker posts messages strictly in enqueue order with no
interleaving: over any queue of pending messages whose send loops each
reach acceptance, the sequence of posted paths is the concatenation,
in enqueue order, of one contiguous nonempty block of posts per
message, each block posting only to its own message's room path. -/
theorem C1_fifo_delivery (prev : Option String)
    (items : List ((Nat × String) × List Response))
    (h : ∀ it ∈ items, ∃ r ∈ it.2, isAcceptResponse r = true) :
    ∃ counts : List Nat,
      counts.length = items.length ∧ (∀ c ∈ counts, 1 ≤ c) ∧
      (_worker prev
          (items.map (fun it => (QueueItem.msg it.1.1 it.1.2, it.2)))).map
         Prod.fst
        = (List.zipWith (fun it c => List.replicate c (msgPath it.1.1))
            items counts).flatten := by
  induction items generalizing prev with
  | nil => exact ⟨[], rfl, by simp, by simp [_worker]⟩
  | cons it rest ih =>
    obtain ⟨⟨rid, t⟩, script⟩ := it
    have hacc := h _ (List.mem_cons_self _ rest)
    obtain ⟨p, hp⟩ : ∃ p, (_actuallySendMessage prev rid t script).accepted = some p := by
      simpa [_actuallySendMessage] using
        sendLoop_accepts (msgPath rid) script hacc (guardText prev t)
    have hpaths : (_actuallySendMessage prev rid t script).trace.map
        (fun a => a.path)
        = List.replicate (_actuallySendMessage prev rid t script).trace.length
            (msgPath rid) := by
      have hmem : ∀ b ∈ (_actuallySendMessage prev rid t script).trace.map
          (fun a => a.path), b = msgPath rid := by
        intro b hb
        obtain ⟨a, ha, hab⟩ := List.mem_map.mp hb
        rw [← hab]
        exact sendLoop_path (msgPath rid) script (guardText prev t) a ha
      have := List.eq_replicate_of_mem hmem
      simpa using this
    have hne : (_actuallySendMessage prev rid t script).trace ≠ [] := by
      obtain ⟨r, hr, _⟩ := hacc
      cases script with
      | nil => simp at hr
      | cons r0 rs0 =>
        obtain ⟨w, rest0, hw⟩ :=
          sendLoop_trace_cons (msgPath rid) (guardText prev t) r0 rs0
        simp [_actuallySendMessage] at hw ⊢
        simp [hw]
    obtain ⟨counts, hlen, hpos, hjoin⟩ :=
      ih (some p) (fun it2 h2 => h it2 (List.mem_cons_of_mem _ h2))
    refine ⟨(_actuallySendMessage prev rid t script).trace.length :: counts,
      by simp [hlen], ?_, ?_⟩
    · intro c hc
      rcases List.mem_cons.mp hc with hc | hc
      · rw [hc]
        have := List.length_pos.mpr hne
        omega
      · exact hpos c hc
    · simp only [List.map_cons, _worker, hp]
      simp only [List.zipWith_cons_cons, List.flatten_cons]
      rw [List.map_append, ← hjoin, List.map_map]
      congr 1

/-- Closed instance of C1_fifo_delivery on a two-message queue. -/
theorem C1_fifo_delivery_witness :
    ∃ counts : List Nat,
      counts.length =
        ([((1, ("a")), [Response.other]),
          ((2, ("b")), [Response.payload (some 7)])] :
            List ((Nat × String) × List Response)).length ∧
      (∀ c ∈ counts, 1 ≤ c) ∧
      (_worker none
          (([((1, ("a")), [Response.other]),
             ((2, ("b")), [Response.payload (some 7)])] :
               List ((Nat × String) × List Response)).map
            (fun it => (QueueItem.msg it.1.1 it.1.2, it.2)))).map Prod.fst
        = (List.zipWith (fun it c => List.replicate c (msgPath it.1.1))
            ([((1, ("a")), [Response.other]),
              ((2, ("b")), [Response.payload (some 7)])] :
                List ((Nat × String) × List Response)) counts).flatten :=
  C1_fifo_delivery none
    [((1, ("a")), [Response.other]), ((2, ("b")), [Response.payload (some 7)])]
    (by decide)

/-! ## Claim theorems: session facade -/

/-- C2 as stated is false: sendMessage checks no precondition, so on a
freshly constructed (logged-out) session the message is silently
accepted into the queue, and the worker would post it once started. -/
theorem C2_send_before_login_counterexample :
    (mkWrapper ("SE")).logged_in = false ∧
    (sendMessage (mkWrapper ("SE")) 1 ("hi")).queue = [QueueItem.msg 1 ("hi")] ∧
    _worker none [(QueueItem.msg 1 ("hi"), [Response.other])] =
      [(msgPath 1, ("hi"))] :=
  ⟨rfl, rfl, rfl⟩

/-- C2 amended: sendMessage enqueues the (room_id, text) pair
unconditionally, with no logged_in check and no error; the enqueued
message is delivered once the worker runs, while a message enqueued
behind the logout sentinel is silently never posted. -/
theorem C2_amended_unconditional_enqueue (w : SEChatWrapper) (rid : Nat)
    (text : String) :
    sendMessage w rid text =
      { w with queue := w.queue ++ [QueueItem.msg rid text] } ∧
    (sendMessage w rid text).logged_in = w.logged_in ∧
    _worker w.previous [(QueueItem.msg rid text, [Response.other])] =
      [(msgPath rid, guardText w.previous text)] ∧
    (∀ rest : List (QueueItem × List Response),
      _worker w.previous ((QueueItem.stop, []) :: rest) = []) := by
  refine ⟨rfl, rfl, ?_, fun rest => rfl⟩
  simp [_worker, _actuallySendMessage, sendLoop, attemptStep, BACKOFF_ADDER]

/-- C9: login on a logged-out session whose site identifier is outside
the recognized set raises the descriptive ValueError naming the site,
and leaves the state unchanged: the session is not marked logged in
and the worker thread is not started. -/
theorem C9_unknown_site_login_fails (w : SEChatWrapper)
    (h0 : w.logged_in = false) (h1 : w.site ≠ "SE") (h2 : w.site ≠ "SO")
    (h3 : w.site ≠ "MSE") :
    (login w).result = Except.error ("Unable to login to site: " ++ w.site) ∧
    (login w).state = w ∧
    (login w).state.logged_in = false ∧
    (login w).state.thread_started = w.thread_started := by
  simp [login, h0, h1, h2, h3]

/-- Closed instance of C9_unknown_site_login_fails at a freshly
constructed session for an unrecognized site. -/
theorem C9_unknown_site_login_fails_witness :
    (login (mkWrapper ("funsite"))).result =
      Except.error ("Unable to login to site: " ++ (mkWrapper ("funsite")).site) ∧
    (login (mkWrapper ("funsite"))).state = mkWrapper ("funsite") ∧
    (login (mkWrapper ("funsite"))).state.logged_in = false ∧
    (login (mkWrapper ("funsite"))).state.thread_started =
      (mkWrapper ("funsite")).thread_started :=
  C9_unknown_site_login_fails (mkWrapper ("funsite")) rfl (by decide)
    (by decide) (by decide)

/-! ## Claim theorems: event classification -/

/-- Binding an Except error short-circuits. -/
theorem exceptBindErr {α β : Type} (e : String) (f : α → Except String β) :
    (Except.error e >>= f) = (Except.error e : Except String β) := rfl

/-- Binding an Except success applies the continuation. -/
theorem exceptBindOk {α β : Type} (a : α) (f : α → Except String β) :
    (Except.ok a >>= f) = f a := rfl

/-- The list comprehension of _room_events (filter the falsy entries,
then construct each Event, propagating the first failure) computes the
same classification as the spec-shaped recursion classifySeq. -/
theorem mapM_filterMap_classify (l : List (Option RawRecord)) :
    (l.filterMap id).mapM mkEvent = classifySeq l := by
  induction l with
  | nil => rfl
  | cons o rest ih =>
    cases o with
    | none => simpa [List.filterMap_cons] using ih
    | some r =>
      simp only [List.filterMap_cons, id]
      rw [List.mapM_cons, ih]
      cases hm : mkEvent r with
      | error e => simp [classifySeq, hm, exceptBindErr]
      | ok ev =>
        simp only [classifySeq, hm, exceptBindOk]
        cases hc : classifySeq rest with
        | error e => simp [hc, exceptBindErr]
        | ok evs => simp [hc, exceptBindOk]

/-- C8: classification of an activity blob for a room walks the room's
raw record sequence in order, emits nothing for falsy entries (the
refinement to classifySeq), and yields zero events when the room key
is absent or its event list is absent or empty. -/
theorem C8_room_events_order (activity : List (String × RoomActivity))
    (room_id : String) :
    _room_events activity room_id =
      classifySeq ((((lookupDict activity ("r" ++ room_id)).getD
        { e := none }).e).getD []) ∧
    (lookupDict activity ("r" ++ room_id) = none →
      _room_events activity room_id = Except.ok []) ∧
    (∀ ra, lookupDict activity ("r" ++ room_id) = some ra →
      (ra.e = none ∨ ra.e = some ([] : List (Option RawRecord))) →
      _room_events activity room_id = Except.ok []) := by
  refine ⟨?_, ?_, ?_⟩
  · simp only [_room_events]
    exact mapM_filterMap_classify _
  · intro h
    simp [_room_events, h]
    rfl
  · intro ra hra he
    rcases he with he | he <;>
      · simp [_room_events, hra, he]
        rfl

/-- Closed instance of C8_room_events_order: a room whose event list
holds only falsy entries, and a blob without the room key. -/
theorem C8_room_events_order_witness :
    _room_events [(("r1"), { e := some ([none, none]) })] ("1") =
      classifySeq ((((lookupDict [(("r1"),
        { e := some ([none, none] : List (Option RawRecord)) })]
        ("r" ++ "1")).getD { e := none }).e).getD []) ∧
    _room_events [] ("7") = Except.ok [] :=
  ⟨(C8_room_events_order [(("r1"),
      { e := some ([none, none] : List (Option RawRecord)) })] ("1")).1,
   (C8_room_events_order [] ("7")).2.1 rfl⟩

/-- C7: constructing an Event from a record whose event_type code
matches no known EventType never raises (given the base keys present):
the type field keeps the raw integer code, and classification of
sibling records proceeds around it unharmed. -/
theorem C7_unknown_event_type (data : RawRecord) (c i ri ts : Int)
    (rn : String) (h1 : data.event_type = some c) (h2 : data.id = some i)
    (h3 : data.room_id = some ri) (h4 : data.room_name = some rn)
    (h5 : data.time_stamp = some ts)
    (h6 : Event.Types.by_value c = none) :
    ∃ e, mkEvent data = Except.ok e ∧ e.type = EType.unknown c ∧
      ∀ rest, classifySeq (some data :: rest) =
        (classifySeq rest).map (fun es => e :: es) := by
  have hc1 : c ≠ 1 := by
    intro hc
    rw [hc] at h6
    have hone : Event.Types.by_value 1 = some Event.Types.message_posted := rfl
    rw [hone] at h6
    exact Option.noConfusion h6
  have hmk : mkEvent data = Except.ok
      { type := EType.unknown c, event_id := i, room_id := ri,
        room_name := rn, time_stamp := ts, content := none,
        user_name := none, user_id := none, message_id := none } := by
    simp only [mkEvent, h1, h2, h3, h4, h5, h6]
    rw [if_neg]
    simpa [EType.code] using hc1
  refine ⟨_, hmk, rfl, ?_⟩
  intro rest
  simp only [classifySeq, hmk]
  cases hc : classifySeq rest <;> simp [Except.map, hc]

/-- A raw record with the unknown event_type code 9999 and all base
keys present. -/
def rec9999 : RawRecord :=
  { event_type := some 9999, id := some 1, room_id := some 101,
    room_name := some ("R"), time_stamp := some 3, content := none,
    user_name := none, user_id := none, message_id := none }

/-- Closed instance of C7_unknown_event_type at the code 9999. -/
theorem C7_unknown_event_type_witness :
    ∃ e, mkEvent rec9999 = Except.ok e ∧ e.type = EType.unknown 9999 ∧
      ∀ rest, classifySeq (some rec9999 :: rest) =
        (classifySeq rest).map (fun es => e :: es) :=
  C7_unknown_event_type rec9999 9999 1 101 3 ("R") rfl rfl rfl rfl rfl
    (by decide)

end ChatExchange
